import Mathlib

/-!
Shallow embedding of the LiftPlannerPro command engine
(src/CommandManager.h and src/CommandManager.cpp): the command
abstraction (`CADCommand`, `CADCommandGroup`), the undo/redo history,
grouping, alias resolution, dispatch of raw command lines, and script
execution.  Every definition mirrors the corresponding C++ member
function; machine behaviour that the engine observes about a command
(whether a virtual call throws, what `canUndo` returns) is carried as
data on the command value.  `QString` operations are modelled on the
underlying character list.
-/

/-- Mirrors a `CADCommand` as the engine observes it.  An `atomic` value
stands for any concrete subclass, described by its `name()` and the
outcomes of its virtual calls: `cu` is what `canUndo()` returns, and
`ef`, `uf`, `rf` say whether `execute()`, `undo()`, `redo()` throw.
A `group` is a `CADCommandGroup` with its member list in execution
order. -/
inductive Cmd where
  | atomic (nm : String) (cu ef uf rf : Bool)
  | group (nm : String) (members : List Cmd)

/-- Mirrors `CADCommand::name` / `CADCommandGroup::name`. -/
def Cmd.name : Cmd → String
  | .atomic nm _ _ _ _ => nm
  | .group nm _ => nm

/-- Mirrors `canUndo()`: an atomic subclass may override it;
`CADCommandGroup` inherits the base-class default `return true`. -/
def Cmd.canUndo : Cmd → Bool
  | .atomic _ cu _ _ _ => cu
  | .group _ _ => true

mutual
/-- Mirrors `execute()`: `true` means it returned normally, `false`
means it threw.  `CADCommandGroup::execute` runs the members in order;
a member's throw propagates and aborts the loop. -/
def Cmd.execRun : Cmd → Bool
  | .atomic _ _ ef _ _ => !ef
  | .group _ ms => Cmd.execList ms

/-- Success of running a member list in order (group `execute`). -/
def Cmd.execList : List Cmd → Bool
  | [] => true
  | c :: cs => c.execRun && Cmd.execList cs
end

mutual
/-- Mirrors `undo()`: `none` means it threw; `some tr` means it
succeeded, where `tr` lists the names of the atomic commands whose
`undo()` ran, in invocation order.  `CADCommandGroup::undo` iterates
`rbegin()`..`rend()`, i.e. the members in reverse of execution order. -/
def Cmd.undoRun : Cmd → Option (List String)
  | .atomic nm _ _ uf _ => if uf then none else some [nm]
  | .group _ ms => Cmd.undoMembersRev ms

/-- Undo of a member list in reverse order: the tail (later members)
is undone before the head, matching the reverse iteration in
`CADCommandGroup::undo`. -/
def Cmd.undoMembersRev : List Cmd → Option (List String)
  | [] => some []
  | c :: cs =>
    match Cmd.undoMembersRev cs with
    | none => none
    | some ts =>
      match c.undoRun with
      | none => none
      | some t => some (ts ++ t)
end

/-- Mirrors `redo()`: an atomic subclass may override it (the base
default calls `execute()`); `CADCommandGroup::redo` calls the group's
`execute()`. -/
def Cmd.redoRun : Cmd → Bool
  | .atomic _ _ _ _ rf => !rf
  | .group _ ms => Cmd.execList ms

/-- Outcome of a registered factory invocation
(`std::function<std::unique_ptr<CADCommand>(const QStringList&)>`):
it can return a command, return `nullptr`, or throw. -/
inductive FactoryResult where
  | ok (c : Cmd)
  | nullPtr
  | throws

/-- A registered factory. -/
def Factory : Type := List String → FactoryResult

/-- The Qt signals `CommandManager` emits, in emission order. -/
inductive Event where
  | commandExecuted (line : String)
  | commandFailed (cmd msg : String)
  | undoAvailabilityChanged (b : Bool)
  | redoAvailabilityChanged (b : Bool)
  | historyChanged
  | groupingChanged (b : Bool)
deriving DecidableEq

/-- Character-list model of `QString::trimmed`. -/
def qTrimmed (s : String) : String :=
  String.mk
    (((s.data.dropWhile Char.isWhitespace).reverse.dropWhile
        Char.isWhitespace).reverse)

/-- Character-list model of `QString::toLower`. -/
def qToLower (s : String) : String :=
  String.mk (s.data.map Char.toLower)

/-- Character-list model of `QString::isEmpty`. -/
def qIsEmpty (s : String) : Bool :=
  s.data.isEmpty

/-- Character model of `QString::startsWith(QChar)`. -/
def qStartsWith (s : String) (c : Char) : Bool :=
  match s.data with
  | [] => false
  | d :: _ => d = c

/-- Character-list model of `QString::split('\n', Qt::SkipEmptyParts)`:
cut at every separator, then drop the empty pieces. -/
def splitSep (sep : Char) : List Char → List Char → List (List Char)
  | [], cur => [cur.reverse]
  | c :: cs, cur =>
    if c = sep then cur.reverse :: splitSep sep cs []
    else splitSep sep cs (c :: cur)

/-- Split a string on a separator character, skipping empty parts. -/
def qSplitSkipEmpty (s : String) (sep : Char) : List String :=
  ((splitSep sep s.data []).filter (fun p => !p.isEmpty)).map String.mk

/-- The mutable state of one `CommandManager`.  The undo and redo
stacks are lists with the top (most recently pushed `QStack` element)
at the head; `trimHistory`'s `removeFirst` therefore drops from the
tail.  `currentGroup` carries the open group's name and its members in
execution order. -/
structure EngineState where
  undoStack : List Cmd
  redoStack : List Cmd
  commands : List (String × Factory)
  aliases : List (String × String)
  currentGroup : Option (String × List Cmd)
  recording : Bool
  recordedCommands : List String
  undoLimit : Nat
  commandEcho : Bool
  lastCommand : String
  commandInProgress : Bool

/-- First-match association lookup, standing for `QHash::find`. -/
def lookupKey {α : Type} (m : List (String × α)) (k : String) : Option α :=
  (m.find? (fun p => p.1 = k)).map (fun p => p.2)

/-- Mirrors `CommandManager::parseCommandLine`'s character loop:
a double quote toggles `inQuotes`, whitespace outside quotes flushes
the current token, anything else is appended to it.  `cur` holds the
current token's characters in reverse. -/
def parseChars : List Char → Bool → List Char → List String
  | [], _, cur =>
    if cur.isEmpty then [] else [String.mk cur.reverse]
  | c :: cs, inQ, cur =>
    if c = '\"' then
      parseChars cs (!inQ) cur
    else if c.isWhitespace && !inQ then
      if cur.isEmpty then parseChars cs inQ []
      else String.mk cur.reverse :: parseChars cs inQ []
    else
      parseChars cs inQ (c :: cur)

/-- Mirrors `CommandManager::parseCommandLine`. -/
def parseCommandLine (commandLine : String) : List String :=
  parseChars commandLine.data false []

/-- Mirrors `CommandManager::resolveAlias`: if the lowercased input is
a known alias return its stored target, else return the lowercased
input. -/
def resolveAlias (s : EngineState) (command : String) : String :=
  match lookupKey s.aliases (qToLower command) with
  | some t => t
  | none => qToLower command

/-- Mirrors `CommandManager::createCommand`: look up the lowercased
name; a missing entry yields no command, and a factory that returns
`nullptr` or throws is caught and also yields no command. -/
def createCommand (s : EngineState) (nm : String) (args : List String) :
    Option Cmd :=
  match lookupKey s.commands (qToLower nm) with
  | none => none
  | some f =>
    match f args with
    | .ok c => some c
    | .nullPtr => none
    | .throws => none

/-- Mirrors `CommandManager::addToHistory`: a null or non-undoable
command is dropped before anything else happens; otherwise the redo
stack is cleared, the command pushed, the history trimmed to
`undoLimit` (evicting the oldest entries, i.e. the tail of the list),
and `updateUndoRedoState` plus `historyChanged` fire. -/
def addToHistory (s : EngineState) (c : Cmd) : EngineState × List Event :=
  if !c.canUndo then (s, [])
  else
    let newUndo := (c :: s.undoStack).take s.undoLimit
    ({ s with redoStack := [], undoStack := newUndo },
     [Event.undoAvailabilityChanged (!newUndo.isEmpty),
      Event.redoAvailabilityChanged false,
      Event.historyChanged])

/-- Mirrors `CommandManager::undo`: warn (no event) on an empty stack;
else pop the top command and invoke its `undo()`.  On success push it
onto the redo stack and fire `updateUndoRedoState` / `historyChanged`;
on a throw push it back onto the undo stack with no events. -/
def undoOp (s : EngineState) : EngineState × List Event :=
  match s.undoStack with
  | [] => (s, [])
  | c :: rest =>
    let popped := { s with undoStack := rest }
    match c.undoRun with
    | some _ =>
      let s' := { popped with redoStack := c :: popped.redoStack }
      (s', [Event.undoAvailabilityChanged (!s'.undoStack.isEmpty),
            Event.redoAvailabilityChanged (!s'.redoStack.isEmpty),
            Event.historyChanged])
    | none => ({ popped with undoStack := c :: popped.undoStack }, [])

/-- Mirrors `CommandManager::redo`, symmetric to `undo`: a popped
command whose `redo()` throws is pushed back onto the redo stack. -/
def redoOp (s : EngineState) : EngineState × List Event :=
  match s.redoStack with
  | [] => (s, [])
  | c :: rest =>
    let popped := { s with redoStack := rest }
    if c.redoRun then
      let s' := { popped with undoStack := c :: popped.undoStack }
      (s', [Event.undoAvailabilityChanged (!s'.undoStack.isEmpty),
            Event.redoAvailabilityChanged (!s'.redoStack.isEmpty),
            Event.historyChanged])
    else ({ popped with redoStack := c :: popped.redoStack }, [])

/-- Mirrors `CommandManager::endGroup`: warn and do nothing when no
group is open; else push the group to history when it is non-empty,
discard it silently when empty, and leave grouping mode. -/
def endGroupOp (s : EngineState) : EngineState × List Event :=
  match s.currentGroup with
  | none => (s, [])
  | some (nm, ms) =>
    if ms.isEmpty then
      ({ s with currentGroup := none }, [Event.groupingChanged false])
    else
      let (s1, e1) := addToHistory s (Cmd.group nm ms)
      ({ s1 with currentGroup := none }, e1 ++ [Event.groupingChanged false])

/-- Mirrors `CommandManager::beginGroup`: an already-open group is
implicitly ended first (with a warning), then a fresh empty group is
opened. -/
def beginGroupOp (s : EngineState) (groupName : String) :
    EngineState × List Event :=
  match s.currentGroup with
  | some _ =>
    let (s1, e1) := endGroupOp s
    ({ s1 with currentGroup := some (groupName, []) },
     e1 ++ [Event.groupingChanged true])
  | none =>
    ({ s with currentGroup := some (groupName, []) },
     [Event.groupingChanged true])

/-- Result of a dispatch: the state after it, the signals emitted in
order, and the boolean the call returned. -/
structure DispatchResult where
  state : EngineState
  events : List Event
  ok : Bool

/-- Mirrors the `std::unique_ptr<CADCommand>` overload of
`CommandManager::executeCommand`.  On a successful `execute()` the
command is appended to the open group when grouping, else routed to
`addToHistory`; the source then assigns
`m_lastCommand = command->name()` — reading `command` after it was
moved from, which is undefined behaviour in C++; it is modelled here
as the intended read of the executed command's name.  A throwing
`execute()` emits `commandFailed` keyed by the command's name and
returns `false`. -/
def executeCommandPtr (s : EngineState) (c : Cmd) : DispatchResult :=
  if c.execRun then
    match s.currentGroup with
    | some (nm, ms) =>
      ⟨{ s with currentGroup := some (nm, ms ++ [c]),
                lastCommand := c.name, commandInProgress := false },
       [], true⟩
    | none =>
      let (s1, e1) := addToHistory { s with commandInProgress := false } c
      ⟨{ s1 with lastCommand := c.name }, e1, true⟩
  else
    ⟨{ s with commandInProgress := false },
     [Event.commandFailed c.name "Command execution failed"], false⟩

/-- The steps of the `QString` overload of
`CommandManager::executeCommand` after echo and recording: tokenize,
resolve the alias of the lowercased first token, test the resolved
name against the reserved names (`u`/`undo`, `redo`, `repeat`/empty),
and otherwise create and execute a command, reporting
`Unknown command` when none could be built.  `repeatRun` is the
re-entry into `executeCommand` used by `repeatLastCommand`. -/
def executeCommandTail (repeatRun : EngineState → String → DispatchResult)
    (s1 : EngineState) (commandLine : String) : DispatchResult :=
  match parseCommandLine commandLine with
  | [] => ⟨s1, [], false⟩
  | first :: args =>
    let commandName := resolveAlias s1 (qToLower first)
    if commandName = "u" || commandName = "undo" then
      let (s2, e2) := undoOp s1
      ⟨s2, e2, true⟩
    else if commandName = "redo" then
      let (s2, e2) := redoOp s1
      ⟨s2, e2, true⟩
    else if commandName = "repeat" || qIsEmpty commandName then
      if qIsEmpty s1.lastCommand then ⟨s1, [], true⟩
      else
        let r := repeatRun s1 s1.lastCommand
        ⟨r.state, r.events, true⟩
    else
      match createCommand s1 commandName args with
      | some c => executeCommandPtr s1 c
      | none =>
        ⟨s1, [Event.commandFailed commandLine
               ("Unknown command: " ++ commandName)], false⟩

/-- Mirrors the `QString` overload of `CommandManager::executeCommand`:
reject whitespace-only lines, emit the echo of the verbatim line,
append it to the recording buffer, then run the post-echo steps. -/
def executeCommandCore (repeatRun : EngineState → String → DispatchResult)
    (s : EngineState) (commandLine : String) : DispatchResult :=
  if qIsEmpty (qTrimmed commandLine) then ⟨s, [], false⟩
  else
    let ev0 := if s.commandEcho then [Event.commandExecuted commandLine]
               else []
    let s1 := if s.recording
              then { s with recordedCommands :=
                       s.recordedCommands ++ [commandLine] }
              else s
    let r := executeCommandTail repeatRun s1 commandLine
    ⟨r.state, ev0 ++ r.events, r.ok⟩

/-- The dispatcher with the `repeatLastCommand` re-entry tied shut:
`fuel` bounds the chain of repeat re-entries (the source recurses
unboundedly there; a repeat that runs out of fuel is a no-op returning
`true`, which the source only reaches by diverging). -/
def executeCommand : Nat → EngineState → String → DispatchResult
  | 0 => executeCommandCore (fun s' _ => ⟨s', [], true⟩)
  | fuel + 1 => executeCommandCore (fun s' l => executeCommand fuel s' l)

/-- Mirrors the loop body of `CommandManager::executeScriptText`:
each line is trimmed; blank lines and lines starting with a comment
marker are skipped; every other line is submitted, a failure clearing
the success flag without stopping the loop. -/
def runScriptLines (fuel : Nat) : EngineState → List String → EngineState × List Event × Bool
  | s, [] => (s, [], true)
  | s, l :: ls =>
    let t := qTrimmed l
    if qIsEmpty t || qStartsWith t ';' || qStartsWith t '#' then
      runScriptLines fuel s ls
    else
      let r := executeCommand fuel s t
      let (s', evs, ok) := runScriptLines fuel r.state ls
      (s', r.events ++ evs, r.ok && ok)

/-- Mirrors `CommandManager::executeScriptText`: split on newlines
(with `Qt::SkipEmptyParts`), wrap the whole run in one implicit group
and submit the surviving lines. -/
def executeScriptText (fuel : Nat) (s : EngineState) (scriptText : String) :
    EngineState × List Event × Bool :=
  let lines := qSplitSkipEmpty scriptText '\n'
  let (s1, e1) := beginGroupOp s "Script Execution"
  let (s2, e2, ok) := runScriptLines fuel s1 lines
  let (s3, e3) := endGroupOp s2
  (s3, e1 ++ e2 ++ e3, ok)

/-- Observation helper: the per-line boolean results of exactly the
lines a script run submits (the non-skipped lines), threading the
engine state the same way the loop does. -/
def scriptLineResults (fuel : Nat) : EngineState → List String → List Bool
  | _, [] => []
  | s, l :: ls =>
    let t := qTrimmed l
    if qIsEmpty t || qStartsWith t ';' || qStartsWith t '#' then
      scriptLineResults fuel s ls
    else
      let r := executeCommand fuel s t
      r.ok :: scriptLineResults fuel r.state ls

/-- The lines of a script that are actually submitted: those whose
trimmed form is neither blank nor a comment. -/
def submittedLines (ls : List String) : List String :=
  (ls.map qTrimmed).filter
    (fun t => !(qIsEmpty t || qStartsWith t ';' || qStartsWith t '#'))

/-- A freshly constructed manager with an empty registry and no
aliases (the built-in registrations are left out; theorems state the
registry they need explicitly). -/
def baseState : EngineState where
  undoStack := []
  redoStack := []
  commands := []
  aliases := []
  currentGroup := none
  recording := false
  recordedCommands := []
  undoLimit := 100
  commandEcho := true
  lastCommand := ""
  commandInProgress := false

example : parseCommandLine "foo \"bar baz\" qux" = ["foo", "bar baz", "qux"] := by
  decide

example : parseCommandLine "   " = [] := by decide

/-- C10: for every submitted line that is not whitespace-only, when
command echo is enabled the `commandExecuted` signal carrying the
verbatim raw line is the first event emitted, before tokenization,
alias resolution, or execution — in particular it also fires when the
line is unknown or later fails. -/
theorem C10_echo_fires_first_verbatim (fuel : Nat) (s : EngineState) (line : String)
    (htrim : qIsEmpty (qTrimmed line) = false) (hecho : s.commandEcho = true) :
    ∃ tail, (executeCommand fuel s line).events = Event.commandExecuted line :: tail := by
  cases fuel <;>
    · rw [executeCommand]
      simp only [executeCommandCore, htrim, hecho, Bool.false_eq_true, if_false,
        if_true]
      exact ⟨_, rfl⟩

/-- Witness for C10 at the concrete unknown line `draw` in the fresh
state. -/
theorem C10_echo_fires_first_verbatim_witness :
    ∃ tail, (executeCommand 1 baseState "draw").events =
      Event.commandExecuted "draw" :: tail :=
  C10_echo_fires_first_verbatim 1 baseState "draw" (by decide) rfl

example : (executeCommand 1 baseState "undo").ok = true := rfl
example : (executeCommand 1 baseState "undo").events = [Event.commandExecuted "undo"] := rfl

/-- An undoable command whose virtual calls all succeed. -/
def okCmd : Cmd := Cmd.atomic "a" true false false false

/-- A fire-and-forget command: `canUndo()` returns `false`, everything
else succeeds. -/
def fireCmd : Cmd := Cmd.atomic "fire" false false false false

/-- An undoable command whose `undo()` throws. -/
def badUndoCmd : Cmd := Cmd.atomic "bu" true false true false

/-- An undoable command whose `redo()` throws. -/
def badRedoCmd : Cmd := Cmd.atomic "br" true false false true

/-- C3: a failed `undo()` restores the popped command to the top of
the undo stack and a failed `redo()` restores the popped command to
the top of the redo stack, so after either failed attempt both stacks
are exactly what they were before it. -/
theorem C3_failed_undo_redo_restore_stacks (s : EngineState) :
    (∀ c rest, s.undoStack = c :: rest → c.undoRun = none →
      (undoOp s).1.undoStack = s.undoStack ∧
      (undoOp s).1.redoStack = s.redoStack) ∧
    (∀ c rest, s.redoStack = c :: rest → c.redoRun = false →
      (redoOp s).1.undoStack = s.undoStack ∧
      (redoOp s).1.redoStack = s.redoStack) := by
  constructor
  · intro c rest hs hc
    simp [undoOp, hs, hc]
  · intro c rest hs hc
    simp [redoOp, hs, hc]

/-- Witness for C3 on a state whose top undo entry throws on `undo()`
and whose top redo entry throws on `redo()`. -/
theorem C3_failed_undo_redo_restore_stacks_witness :
    ((undoOp { baseState with undoStack := [badUndoCmd], redoStack := [badRedoCmd] }).1.undoStack
        = [badUndoCmd] ∧
      (undoOp { baseState with undoStack := [badUndoCmd], redoStack := [badRedoCmd] }).1.redoStack
        = [badRedoCmd]) ∧
    ((redoOp { baseState with undoStack := [badUndoCmd], redoStack := [badRedoCmd] }).1.undoStack
        = [badUndoCmd] ∧
      (redoOp { baseState with undoStack := [badUndoCmd], redoStack := [badRedoCmd] }).1.redoStack
        = [badRedoCmd]) :=
  ⟨(C3_failed_undo_redo_restore_stacks _).1 badUndoCmd [] rfl rfl,
   (C3_failed_undo_redo_restore_stacks _).2 badRedoCmd [] rfl rfl⟩

/-- C5 fails on the code: submitting `undo` with empty history returns
`true` (the dispatcher reports the reserved line as handled), and with
command echo enabled (the constructor default) the `commandExecuted`
echo event fires. -/
theorem C5_counterexample :
    (executeCommand 1 baseState "undo").ok = true ∧
    (executeCommand 1 baseState "undo").events =
      [Event.commandExecuted "undo"] :=
  ⟨rfl, rfl⟩

/-- C5 amended: submitting `undo` when the undo stack is empty (and
the name `undo` has not been rebound by an alias) is a history no-op —
both stacks are unchanged and no history or availability event fires —
but the call returns `true`, and the echo event still fires whenever
command echo is enabled. -/
theorem C5_amended_undo_on_empty_soft_noop (fuel : Nat) (s : EngineState)
    (hundo : s.undoStack = [])
    (halias : lookupKey s.aliases "undo" = none) :
    (executeCommand fuel s "undo").ok = true ∧
    (executeCommand fuel s "undo").state.undoStack = s.undoStack ∧
    (executeCommand fuel s "undo").state.redoStack = s.redoStack ∧
    (executeCommand fuel s "undo").events =
      (if s.commandEcho then [Event.commandExecuted "undo"] else []) := by
  have h2 : parseCommandLine "undo" = ["undo"] := by decide
  have h3 : qToLower "undo" = "undo" := by decide
  cases fuel <;>
  · rw [executeCommand]
    by_cases hr : s.recording <;>
      simp +decide [executeCommandCore, executeCommandTail, h2, h3,
        resolveAlias, undoOp, hr, halias, hundo]

/-- Witness for the amended C5 on the fresh state. -/
theorem C5_amended_undo_on_empty_soft_noop_witness :
    (executeCommand 1 baseState "undo").ok = true ∧
    (executeCommand 1 baseState "undo").state.undoStack = baseState.undoStack ∧
    (executeCommand 1 baseState "undo").state.redoStack = baseState.redoStack ∧
    (executeCommand 1 baseState "undo").events =
      (if baseState.commandEcho then [Event.commandExecuted "undo"] else []) :=
  C5_amended_undo_on_empty_soft_noop 1 baseState rfl rfl

/-- C2 fails on the code: `addToHistory` returns before clearing the
redo stack when the executed command's `canUndo()` is `false`, so a
successful top-level execute of such a command leaves earlier redo
entries in place. -/
theorem C2_counterexample :
    (executeCommandPtr { baseState with redoStack := [okCmd] } fireCmd).ok = true ∧
    (executeCommandPtr { baseState with redoStack := [okCmd] } fireCmd).state.redoStack
      = [okCmd] ∧
    (executeCommandPtr { baseState with redoStack := [okCmd] } fireCmd).state.redoStack
      ≠ [] := by
  refine ⟨rfl, rfl, ?_⟩
  have h : (executeCommandPtr { baseState with redoStack := [okCmd] } fireCmd).state.redoStack
      = [okCmd] := rfl
  rw [h]
  simp

/-- C2 amended: after every successful top-level execute (no group
open) of a command whose `canUndo()` is `true`, the redo stack is
empty; a `canUndo() == false` command is executed successfully but
leaves the redo stack untouched. -/
theorem C2_amended_redo_cleared_only_for_undoable (s : EngineState) (c : Cmd)
    (hg : s.currentGroup = none) (hex : c.execRun = true) :
    (executeCommandPtr s c).ok = true ∧
    (c.canUndo = true → (executeCommandPtr s c).state.redoStack = []) ∧
    (c.canUndo = false → (executeCommandPtr s c).state.redoStack = s.redoStack) := by
  refine ⟨?_, ?_, ?_⟩ <;>
    simp [executeCommandPtr, hex, hg, addToHistory] <;>
    intro hcu <;> simp [hcu]

/-- Witness for the amended C2: an undoable command clears a pending
redo entry, a fire-and-forget command does not. -/
theorem C2_amended_redo_cleared_only_for_undoable_witness :
    ((executeCommandPtr { baseState with redoStack := [okCmd] } okCmd).ok = true ∧
      (okCmd.canUndo = true →
        (executeCommandPtr { baseState with redoStack := [okCmd] } okCmd).state.redoStack = []) ∧
      (okCmd.canUndo = false →
        (executeCommandPtr { baseState with redoStack := [okCmd] } okCmd).state.redoStack
          = ({ baseState with redoStack := [okCmd] } : EngineState).redoStack)) :=
  C2_amended_redo_cleared_only_for_undoable
    { baseState with redoStack := [okCmd] } okCmd rfl rfl

/-- C8 fails on the code: a `canUndo() == false` command executed into
an open group is kept as a group member, and `endGroup` pushes the
group (whose inherited `canUndo()` is `true`) onto the undo stack, so
the command reaches history rather than being discarded. -/
theorem C8_counterexample :
    fireCmd.canUndo = false ∧
    (endGroupOp (executeCommandPtr (beginGroupOp baseState "G").1 fireCmd).state).1.undoStack
      = [Cmd.group "G" [fireCmd]] :=
  ⟨rfl, rfl⟩

/-- C8 amended: `addToHistory` never pushes a `canUndo() == false`
command directly (the state is returned unchanged); but a successful
execute while a group is open appends the command to the group
regardless of its `canUndo()`, and ending a non-empty group pushes the
group itself onto the undo stack. -/
theorem C8_amended_non_undoable_direct_only (s : EngineState) :
    (∀ c, c.canUndo = false → addToHistory s c = (s, [])) ∧
    (∀ c nm ms, s.currentGroup = some (nm, ms) → c.execRun = true →
      (executeCommandPtr s c).state.currentGroup = some (nm, ms ++ [c]) ∧
      (executeCommandPtr s c).state.undoStack = s.undoStack) ∧
    (∀ nm ms, s.currentGroup = some (nm, ms) → ms ≠ [] →
      (endGroupOp s).1.undoStack =
        ((Cmd.group nm ms) :: s.undoStack).take s.undoLimit) := by
  refine ⟨?_, ?_, ?_⟩
  · intro c hcu
    simp [addToHistory, hcu]
  · intro c nm ms hg hex
    simp [executeCommandPtr, hex, hg]
  · intro nm ms hg hne
    simp [endGroupOp, hg, hne, addToHistory, Cmd.canUndo]

/-- Witness for the amended C8 on concrete states built around the
fire-and-forget command. -/
theorem C8_amended_non_undoable_direct_only_witness :
    (addToHistory baseState fireCmd = (baseState, [])) ∧
    ((executeCommandPtr { baseState with currentGroup := some ("G", []) } fireCmd).state.currentGroup
        = some ("G", [fireCmd]) ∧
      (executeCommandPtr { baseState with currentGroup := some ("G", []) } fireCmd).state.undoStack
        = ({ baseState with currentGroup := some ("G", []) } : EngineState).undoStack) ∧
    ((endGroupOp { baseState with currentGroup := some ("G", [fireCmd]) }).1.undoStack =
      ((Cmd.group "G" [fireCmd]) ::
        ({ baseState with currentGroup := some ("G", [fireCmd]) } : EngineState).undoStack).take
        ({ baseState with currentGroup := some ("G", [fireCmd]) } : EngineState).undoLimit) :=
  ⟨(C8_amended_non_undoable_direct_only baseState).1 fireCmd rfl,
   (C8_amended_non_undoable_direct_only _).2.1 fireCmd "G" [] rfl rfl,
   (C8_amended_non_undoable_direct_only _).2.2 "G" [fireCmd] rfl (by simp)⟩

/-- A factory that always succeeds, building an undoable command named
`line`. -/
def lineFactory : Factory :=
  fun _ => FactoryResult.ok (Cmd.atomic "line" true false false false)

/-- A state whose registry holds only the always-succeeding `line`
factory. -/
def lineState : EngineState := { baseState with commands := [("line", lineFactory)] }

/-- C1 (code divergence, kept as evidence): after the successful
dispatch of the raw line `line 1 2`, the engine's last-command slot
holds the executed command's `name()` (`line`) — not the raw line —
and a subsequent `repeat` re-submits just `line`, dropping the
arguments, as the second echo event shows.  (In the source the
assignment `m_lastCommand = command->name()` additionally reads
`command` after `std::move(command)`, which is undefined behaviour;
the model charitably reads the name the assignment intended.) -/
theorem C1_lastCommand_stores_name_not_raw_line :
    (executeCommand 2 lineState "line 1 2").ok = true ∧
    (executeCommand 2 lineState "line 1 2").state.lastCommand = "line" ∧
    "line" ≠ "line 1 2" ∧
    (executeCommand 2 (executeCommand 2 lineState "line 1 2").state "repeat").events
      = [Event.commandExecuted "repeat", Event.commandExecuted "line",
         Event.undoAvailabilityChanged true, Event.redoAvailabilityChanged false,
         Event.historyChanged] :=
  ⟨rfl, rfl, by decide, rfl⟩

/-- A second undoable command whose virtual calls all succeed. -/
def okCmdB : Cmd := Cmd.atomic "b" true false false false

/-- C4: a `beginGroup(G); execute(a); execute(b); endGroup()` sequence
with both executes succeeding pushes exactly one new entry — the group
with members `[a, b]` — onto the undo stack; undoing that entry runs
`b`'s undo before `a`'s undo; and ending a group with zero members
pushes nothing. -/
theorem C4_group_one_entry_reverse_undo (s : EngineState) (a b : Cmd) (g : String)
    (hg : s.currentGroup = none)
    (ha : a.execRun = true) (hb : b.execRun = true)
    (hlim : s.undoStack.length < s.undoLimit) :
    ((endGroupOp (executeCommandPtr (executeCommandPtr
        (beginGroupOp s g).1 a).state b).state).1.undoStack
      = Cmd.group g [a, b] :: s.undoStack) ∧
    (∀ ta tb, a.undoRun = some ta → b.undoRun = some tb →
      (Cmd.group g [a, b]).undoRun = some (tb ++ ta)) ∧
    ((endGroupOp (beginGroupOp s g).1).1.undoStack = s.undoStack) := by
  refine ⟨?_, ?_, ?_⟩
  · simp only [beginGroupOp, hg]
    simp [executeCommandPtr, ha, hb, endGroupOp, addToHistory, Cmd.canUndo]
    omega
  · intro ta tb hta htb
    simp [Cmd.undoRun, Cmd.undoMembersRev, hta, htb]
  · simp [beginGroupOp, hg, endGroupOp]

/-- Witness for C4 with two concrete atomic commands in the fresh
state. -/
theorem C4_group_one_entry_reverse_undo_witness :
    ((endGroupOp (executeCommandPtr (executeCommandPtr
        (beginGroupOp baseState "G").1 okCmd).state okCmdB).state).1.undoStack
      = Cmd.group "G" [okCmd, okCmdB] :: baseState.undoStack) ∧
    ((Cmd.group "G" [okCmd, okCmdB]).undoRun = some (["b"] ++ ["a"])) ∧
    ((endGroupOp (beginGroupOp baseState "G").1).1.undoStack = baseState.undoStack) :=
  ⟨(C4_group_one_entry_reverse_undo baseState okCmd okCmdB "G" rfl rfl rfl
      (by decide)).1,
   (C4_group_one_entry_reverse_undo baseState okCmd okCmdB "G" rfl rfl rfl
      (by decide)).2.1 ["a"] ["b"] rfl rfl,
   (C4_group_one_entry_reverse_undo baseState okCmd okCmdB "G" rfl rfl rfl
      (by decide)).2.2⟩

/-- A state in which the reserved name `undo` has been rebound by an
alias and one undoable command sits in history. -/
def aliasedUndoState : EngineState :=
  { baseState with aliases := [("undo", "boom")], undoStack := [okCmd] }

/-- C6 fails on the code: `resolveAlias` runs before the reserved-name
check, so registering the alias `undo -> boom` stops the line `undo`
from being treated as undo — it is dispatched to the registry (and
fails as unknown) while the same line without the alias performs the
undo. -/
theorem C6_counterexample :
    (executeCommand 1 { baseState with undoStack := [okCmd] } "undo").ok = true ∧
    (executeCommand 1 { baseState with undoStack := [okCmd] } "undo").state.undoStack = [] ∧
    (executeCommand 1 aliasedUndoState "undo").ok = false ∧
    (executeCommand 1 aliasedUndoState "undo").state.undoStack = [okCmd] ∧
    (executeCommand 1 aliasedUndoState "undo").events =
      [Event.commandExecuted "undo",
       Event.commandFailed "undo" "Unknown command: boom"] :=
  ⟨rfl, rfl, rfl, rfl, rfl⟩

/-- C6 amended: the reserved-name test is applied to the
alias-resolved lowercased first token, so a line's treatment is
selected exactly by that resolved name — `u`/`undo` invoke undo,
`redo` invokes redo, `repeat` or an empty name invoke repeat, and
every other name goes to the registry path — hence registering an
alias can redirect a line to or away from each reserved behaviour.
The four cases below are exhaustive and mutually exclusive in the
resolved name, so each direction of the selection holds. -/
theorem C6_amended_reserved_selected_by_resolved_name (fuel : Nat) (s : EngineState)
    (line first rn : String) (args : List String)
    (htrim : qIsEmpty (qTrimmed line) = false)
    (hrec : s.recording = false)
    (hparse : parseCommandLine line = first :: args)
    (hrn : resolveAlias s (qToLower first) = rn) :
    (rn = "u" ∨ rn = "undo" →
      executeCommand fuel s line =
        ⟨(undoOp s).1,
         (if s.commandEcho then [Event.commandExecuted line] else []) ++ (undoOp s).2,
         true⟩) ∧
    (rn = "redo" →
      executeCommand fuel s line =
        ⟨(redoOp s).1,
         (if s.commandEcho then [Event.commandExecuted line] else []) ++ (redoOp s).2,
         true⟩) ∧
    (rn = "repeat" ∨ qIsEmpty rn = true →
      (executeCommand fuel s line).ok = true ∧
      (qIsEmpty s.lastCommand = true →
        executeCommand fuel s line =
          ⟨s, (if s.commandEcho then [Event.commandExecuted line] else []), true⟩) ∧
      (∀ fuel', fuel = fuel' + 1 → qIsEmpty s.lastCommand = false →
        executeCommand fuel s line =
          ⟨(executeCommand fuel' s s.lastCommand).state,
           (if s.commandEcho then [Event.commandExecuted line] else []) ++
             (executeCommand fuel' s s.lastCommand).events,
           true⟩)) ∧
    (rn ≠ "u" → rn ≠ "undo" → rn ≠ "redo" → rn ≠ "repeat" → qIsEmpty rn = false →
      (∀ c, createCommand s rn args = some c →
        executeCommand fuel s line =
          ⟨(executeCommandPtr s c).state,
           (if s.commandEcho then [Event.commandExecuted line] else []) ++
             (executeCommandPtr s c).events,
           (executeCommandPtr s c).ok⟩) ∧
      (createCommand s rn args = none →
        executeCommand fuel s line =
          ⟨s, (if s.commandEcho then [Event.commandExecuted line] else []) ++
             [Event.commandFailed line ("Unknown command: " ++ rn)], false⟩)) := by
  refine ⟨?_, ?_, ?_, ?_⟩
  · rintro (h | h) <;> subst h <;> cases fuel <;>
    · rw [executeCommand]
      rcases hu : undoOp s with ⟨s2, e2⟩
      simp +decide [executeCommandCore, htrim, hrec, executeCommandTail, hparse,
        hrn, hu]
  · intro h
    subst h
    cases fuel <;>
    · rw [executeCommand]
      rcases hu : redoOp s with ⟨s2, e2⟩
      simp +decide [executeCommandCore, htrim, hrec, executeCommandTail, hparse,
        hrn, hu]
  · intro h
    have hrep : rn = "repeat" ∨ rn = "" := by
      rcases h with h | h
      · exact Or.inl h
      · refine Or.inr ?_
        cases rn with
        | mk d =>
          cases d with
          | nil => rfl
          | cons hd tl => simp [qIsEmpty] at h
    rcases hrep with h | h <;> subst h <;>
    · refine ⟨?_, ?_, ?_⟩
      · by_cases hl : qIsEmpty s.lastCommand = true <;> cases fuel <;>
        · rw [executeCommand]
          simp +decide [executeCommandCore, htrim, hrec, executeCommandTail,
            hparse, hrn, hl]
      · intro hl
        cases fuel <;>
        · rw [executeCommand]
          simp +decide [executeCommandCore, htrim, hrec, executeCommandTail,
            hparse, hrn, hl]
      · intro fuel' hf hl
        subst hf
        rw [executeCommand]
        simp +decide [executeCommandCore, htrim, hrec, executeCommandTail,
          hparse, hrn, hl]
  · intro h1 h2 h3 h4 h5
    constructor
    · intro c hc
      cases fuel <;>
      · rw [executeCommand]
        simp [executeCommandCore, htrim, hrec, executeCommandTail, hparse, hrn,
          h1, h2, h3, h4, h5, hc]
    · intro hc
      cases fuel <;>
      · rw [executeCommand]
        simp [executeCommandCore, htrim, hrec, executeCommandTail, hparse, hrn,
          h1, h2, h3, h4, h5, hc]

/-- A state in which the non-reserved name `boom` is aliased to the
reserved name `undo`, with one undoable command in history. -/
def boomUndoState : EngineState :=
  { baseState with aliases := [("boom", "undo")], undoStack := [okCmd] }

/-- Witness for the amended C6: the alias `boom -> undo` resolves the
non-reserved line `boom` to `undo`, so the dispatch performs exactly
the undo transition. -/
theorem C6_amended_reserved_selected_by_resolved_name_witness :
    executeCommand 1 boomUndoState "boom" =
      ⟨(undoOp boomUndoState).1,
       (if boomUndoState.commandEcho then [Event.commandExecuted "boom"] else []) ++
         (undoOp boomUndoState).2,
       true⟩ :=
  (C6_amended_reserved_selected_by_resolved_name 1 boomUndoState
    "boom" "boom" "undo" [] (by decide) rfl (by decide) (by decide)).1
    (Or.inr rfl)

/-- A factory that always throws while constructing. -/
def throwFactory : Factory := fun _ => FactoryResult.throws

/-- A state whose registry holds only the throwing `boom` factory;
echo is off so the failure report is the only event. -/
def throwState : EngineState :=
  { baseState with commands := [("boom", throwFactory)], commandEcho := false }

/-- C7 fails on the code: `createCommand` catches a throwing factory
and returns null, which the dispatcher then reports with the very same
`Unknown command` message it uses for an unregistered name — the two
cases are not distinguished. -/
theorem C7_counterexample :
    lookupKey throwState.commands (qToLower "boom") = some throwFactory ∧
    throwFactory [] = FactoryResult.throws ∧
    (executeCommand 1 throwState "boom").ok = false ∧
    (executeCommand 1 throwState "boom").events
      = [Event.commandFailed "boom" "Unknown command: boom"] ∧
    (executeCommand 1 throwState "nope").ok = false ∧
    (executeCommand 1 throwState "nope").events
      = [Event.commandFailed "nope" "Unknown command: nope"] :=
  ⟨rfl, rfl, rfl, rfl, rfl, rfl⟩

/-- C7 amended: when the resolved non-reserved name is unregistered,
or its registered factory throws during construction, the dispatcher
reports a descriptive failure without throwing to the caller and
leaves both stacks unchanged — but the two cases produce the identical
`Unknown command: <name>` report rather than being distinguished. -/
theorem C7_amended_throw_and_unknown_reported_identically (fuel : Nat)
    (s : EngineState) (line first rn : String) (args : List String)
    (htrim : qIsEmpty (qTrimmed line) = false)
    (hrec : s.recording = false)
    (hparse : parseCommandLine line = first :: args)
    (hrn : resolveAlias s (qToLower first) = rn)
    (h1 : rn ≠ "u") (h2 : rn ≠ "undo") (h3 : rn ≠ "redo") (h4 : rn ≠ "repeat")
    (h5 : qIsEmpty rn = false)
    (hcase : lookupKey s.commands (qToLower rn) = none ∨
      ∃ f, lookupKey s.commands (qToLower rn) = some f ∧
        f args = FactoryResult.throws) :
    (executeCommand fuel s line).ok = false ∧
    (executeCommand fuel s line).state.undoStack = s.undoStack ∧
    (executeCommand fuel s line).state.redoStack = s.redoStack ∧
    (executeCommand fuel s line).events =
      (if s.commandEcho then [Event.commandExecuted line] else []) ++
        [Event.commandFailed line ("Unknown command: " ++ rn)] := by
  have hnone : createCommand s rn args = none := by
    rcases hcase with h | ⟨f, hf, hth⟩
    · simp [createCommand, h]
    · simp [createCommand, hf, hth]
  cases fuel <;>
  · rw [executeCommand]
    simp [executeCommandCore, htrim, hrec, executeCommandTail, hparse, hrn,
      h1, h2, h3, h4, h5, hnone]

/-- Witness for the amended C7 on the throwing `boom` factory. -/
theorem C7_amended_throw_and_unknown_reported_identically_witness :
    (executeCommand 1 throwState "boom").ok = false ∧
    (executeCommand 1 throwState "boom").state.undoStack = throwState.undoStack ∧
    (executeCommand 1 throwState "boom").state.redoStack = throwState.redoStack ∧
    (executeCommand 1 throwState "boom").events =
      (if throwState.commandEcho then [Event.commandExecuted "boom"] else []) ++
        [Event.commandFailed "boom" ("Unknown command: " ++ "boom")] :=
  C7_amended_throw_and_unknown_reported_identically 1 throwState
    "boom" "boom" "boom" [] (by decide) rfl (by decide) (by decide)
    (by decide) (by decide) (by decide) (by decide) (by decide)
    (Or.inr ⟨throwFactory, rfl, rfl⟩)

/-- Helper for C9: the success flag of the script loop is the
conjunction of the per-line results. -/
theorem runScriptLines_ok_eq_results (fuel : Nat) (s : EngineState)
    (ls : List String) :
    (runScriptLines fuel s ls).2.2 = (scriptLineResults fuel s ls).all id := by
  induction ls generalizing s with
  | nil => simp [runScriptLines, scriptLineResults]
  | cons l ls ih =>
    by_cases h : (qIsEmpty (qTrimmed l) || qStartsWith (qTrimmed l) ';' ||
        qStartsWith (qTrimmed l) '#') = true
    · simp [runScriptLines, scriptLineResults, h, ih]
    · simp [runScriptLines, scriptLineResults, h, ih]

/-- Helper for C9: the loop produces one result for every submitted
(non-skipped) line — a failing line never aborts the remainder. -/
theorem scriptLineResults_length_eq (fuel : Nat) (s : EngineState)
    (ls : List String) :
    (scriptLineResults fuel s ls).length = (submittedLines ls).length := by
  induction ls generalizing s with
  | nil => simp [scriptLineResults, submittedLines]
  | cons l ls ih =>
    by_cases h : (qIsEmpty (qTrimmed l) || qStartsWith (qTrimmed l) ';' ||
        qStartsWith (qTrimmed l) '#') = true
    · simp [scriptLineResults, submittedLines, List.filter, h, ih]
    · simp [scriptLineResults, submittedLines, List.filter, h, ih]

/-- C9: `executeScriptText` splits its input into lines, skips the
lines that trim to blank or start with `;` or `#`, and submits every
remaining line — one result per submitted line, so a failure never
aborts the rest — and returns `true` exactly when every submitted line
succeeded. -/
theorem C9_script_best_effort_all_lines (fuel : Nat) (s : EngineState)
    (text : String) :
    ((executeScriptText fuel s text).2.2 = true ↔
      ∀ b ∈ scriptLineResults fuel (beginGroupOp s "Script Execution").1
        (qSplitSkipEmpty text '\n'), b = true) ∧
    (scriptLineResults fuel (beginGroupOp s "Script Execution").1
        (qSplitSkipEmpty text '\n')).length
      = (submittedLines (qSplitSkipEmpty text '\n')).length := by
  constructor
  · simp [executeScriptText, runScriptLines_ok_eq_results, List.all_eq_true]
  · exact scriptLineResults_length_eq fuel _ _
